import Mathlib

/-!
# Shallow embedding of the BROOK semantic compliance checker

This file embeds the rule-evaluation core of
`run_compliance_check_semantic.py` (function `evaluate_rule_semantic`
together with its helpers `any_regex`, `find_all`, `snippet`,
`window_has_negative` and the inline fact-alignment block) and proves
the testable properties of its specification against that embedding.

Modelling conventions:
* document text is a `List Char` (a Python `str` of the ASCII texts the
  checker processes); `String` is used at the interfaces;
* Python floats only ever hold the heuristic constants 0.6, 0.2, 0.95,
  0.9, 0.5 and sums `0.6 + 0.2*k` of them; they are modelled as exact
  rationals;
* the regular expressions the checker feeds to `re` use only literals,
  `\s+`, bounded character-class repetition, `\b` and top-level
  alternation, all compiled with `re.IGNORECASE`; the inductive `Rx`
  below models exactly that fragment with Python's leftmost,
  alternative-order, greedy backtracking semantics;
* `re.compile` of the empty pattern list is `None` in the source
  (`any_regex` filters out empty pattern strings and returns `None` on
  an empty result); the embedding represents each surviving pattern as
  an already-compiled `Rx`.
-/

namespace IFR

/-- Regex fragment used by the checker's rule patterns and by its
registration-shape scan, with case-insensitive matching throughout
(every compile in the source passes `re.IGNORECASE`). -/
inductive Rx where
  | lit : String → Rx
  | cls : (Char → Bool) → Nat → Nat → Rx
  | wsPlus : Rx
  | wb : Rx
  | seq : Rx → Rx → Rx
  | alt : Rx → Rx → Rx

/-- Python word character for `\b` on the ASCII texts involved. -/
def isWordChar (c : Char) : Bool :=
  c.isAlphanum || c = '_'

/-- Whether position `i` of `t` holds a word character. -/
def wordAt (t : List Char) (i : Nat) : Bool :=
  match t.get? i with
  | some c => isWordChar c
  | none => false

/-- `\b`: word-character-ness changes between the previous position and
this one (text edges count as non-word). -/
def isBoundary (t : List Char) (i : Nat) : Bool :=
  (if i = 0 then false else wordAt t (i - 1)) != wordAt t i

/-- Length of the maximal run of characters satisfying `p` from `i`. -/
def maxRun (p : Char → Bool) (t : List Char) (i : Nat) : Nat :=
  ((t.drop i).takeWhile p).length

/-- Case-insensitive literal prefix test at position `i` (the `re.I`
flag lowers both sides for the ASCII texts involved). -/
def lowerPrefixAt (s : String) (t : List Char) (i : Nat) : Bool :=
  (s.toList.map Char.toLower).isPrefixOf ((t.drop i).map Char.toLower)

/-- Candidate end positions of a match of `r` starting at position `i`,
in the order Python's backtracking engine tries them: alternatives left
to right, repetitions greedy (longest first).  The head, when present,
is the match the engine reports at `i`. -/
def Rx.ends : Rx → List Char → Nat → List Nat
  | .lit s, t, i => if lowerPrefixAt s t i then [i + s.length] else []
  | .cls p lo hi, t, i =>
      let n := min hi (maxRun p t i)
      if n < lo then [] else (List.range (n - lo + 1)).map (fun k => i + (n - k))
  | .wsPlus, t, i =>
      let n := maxRun Char.isWhitespace t i
      if n = 0 then [] else (List.range n).map (fun k => i + (n - k))
  | .wb, t, i => if isBoundary t i then [i] else []
  | .seq a b, t, i => (Rx.ends a t i).flatMap (fun j => Rx.ends b t j)
  | .alt a b, t, i => Rx.ends a t i ++ Rx.ends b t i

/-- `re.search`: some match exists somewhere in `t`. -/
def Rx.search (r : Rx) (t : List Char) : Bool :=
  (List.range (t.length + 1)).any (fun i => !(Rx.ends r t i).isEmpty)

/-- `re.finditer` scan: left to right, non-overlapping; after a match
ending at `e` the scan resumes at `e` (or one past a zero-width match).
The fuel is the number of remaining scan positions. -/
def Rx.findAllFrom (r : Rx) (t : List Char) : Nat → Nat → List (Nat × Nat)
  | 0, _ => []
  | Nat.succ fuel, i =>
      if i > t.length then []
      else
        match (Rx.ends r t i).head? with
        | some e => (i, e) :: Rx.findAllFrom r t fuel (max (i + 1) e)
        | none => Rx.findAllFrom r t fuel (i + 1)

/-- All matches of `r` over `t` as `(start, end)` spans. -/
def Rx.findAll (r : Rx) (t : List Char) : List (Nat × Nat) :=
  Rx.findAllFrom r t (t.length + 1) 0

/-- Replace each literal backslash-n two-character sequence by a space,
left to right (`.replace("\\n", " ")` in the source acts on the
two-character sequence, not on newline characters). -/
def replaceBackslashN : List Char → List Char
  | [] => []
  | '\\' :: 'n' :: rest => ' ' :: replaceBackslashN rest
  | c :: rest => c :: replaceBackslashN rest

/-- `str.strip()`: drop leading and trailing whitespace. -/
def trimWs (l : List Char) : List Char :=
  ((l.dropWhile Char.isWhitespace).reverse.dropWhile Char.isWhitespace).reverse

/-- `snippet(text, start, end, margin=120)`: the slice
`text[max(0, start-120) : min(len(text), end+120)]` with literal
backslash-n collapsed to spaces and surrounding whitespace stripped
(natural subtraction performs the `max(0, ·)` clip). -/
def snippet (t : List Char) (s e : Nat) : String :=
  String.mk (trimWs (replaceBackslashN ((t.drop (s - 120)).take (min t.length (e + 120) - (s - 120)))))

/-- The matched text `m.group(0)` of a span. -/
def groupStr (t : List Char) (m : Nat × Nat) : String :=
  String.mk ((t.drop m.1).take (m.2 - m.1))

/-- `any_regex`: OR-join a list of (already compiled) patterns into one
alternation, `None` when the list is empty.  (The source first drops
empty pattern strings; the embedding receives the surviving compiled
patterns.) -/
def any_regex : List Rx → Option Rx
  | [] => none
  | p :: ps => some (ps.foldl Rx.alt p)

/-- `find_all(pattern, text)`: all matches, `[]` when the pattern is
`None` or the text is empty. -/
def find_all (p : Option Rx) (t : List Char) : List (Nat × Nat) :=
  match p with
  | none => []
  | some r => if t.isEmpty then [] else Rx.findAll r t

/-- `window_has_negative`: does the negative pattern match anywhere in
the `± char_window` slice around the span (clipped to text bounds)? -/
def window_has_negative (t : List Char) (m : Nat × Nat) (neg : Option Rx) (cw : Nat) : Bool :=
  match neg with
  | none => false
  | some r => Rx.search r ((t.drop (m.1 - cw)).take (min t.length (m.2 + cw) - (m.1 - cw)))

/-- Case-insensitive literal substring search:
`re.search(re.escape(r), text, re.I) is not None`. -/
def litSearch (pat : String) (t : List Char) : Bool :=
  (List.range (t.length + 1)).any
    (fun i => (pat.toList.map Char.toLower).isPrefixOf ((t.drop i).map Char.toLower))

/-- Python's substring operator `needle in hay` on lists of
characters. -/
def containsSub (needle hay : List Char) : Bool :=
  (List.range (hay.length + 1)).any (fun i => needle.isPrefixOf (hay.drop i))

/-- One legacy check entry `{"type": ..., "patterns": [...]}`. -/
structure Check where
  type : String
  patterns : List String
deriving DecidableEq

/-- `ops_facts` mapping: the two fact categories the checker reads.
An absent or falsy (empty) Python dict is represented by `none` at the
use sites, so a present `OpsFacts` stands for a truthy dict. -/
structure OpsFacts where
  registrations : List String := []
  area : List String := []

/-- A rule record, with the field defaults `rule.get(...)` applies.
Pattern fields hold the compiled form of the surviving (non-empty)
regex strings. -/
structure Rule where
  checks : List Check := []
  rule_type : String := "affirm"
  positive_patterns : List Rx := []
  negative_patterns : List Rx := []
  forbidden_claims : List Rx := []
  threshold : Int := 1
  negation_window_tokens : Int := 12
  ops_facts : Option OpsFacts := none

/-- Result dict of `evaluate_rule_semantic`. -/
structure Outcome where
  decision : String
  matched_positive : List String
  matched_forbidden : List String
  matched_pattern : String
  confidence : ℚ
  notes : String
deriving DecidableEq

/-- `str.join` with separator `sep`. -/
def joinSep (sep : String) : List String → String
  | [] => ""
  | [x] => x
  | x :: y :: rest => x ++ sep ++ joinSep sep (y :: rest)

/-- Inner loop of the legacy path on one check entry: the first pattern
`pat` with `pat and pat.lower() in doc_text.lower()`. -/
def legacyHitPat (t : List Char) (chk : Check) : Option String :=
  if chk.type = "contains_any" then
    chk.patterns.find? (fun pat =>
      (pat != "") && containsSub (pat.toList.map Char.toLower) (t.map Char.toLower))
  else none

/-- The legacy path's first hit across all check entries in order. -/
def firstLegacyHit : List Check → List Char → Option String
  | [], _ => none
  | chk :: rest, t =>
    match legacyHitPat t chk with
    | some pat => some pat
    | none => firstLegacyHit rest t

/-- Backward-compatibility branch of `evaluate_rule_semantic`
(lines 151-173 of the source). -/
def legacyOutcome (checks : List Check) (t : List Char) : Outcome :=
  match firstLegacyHit checks t with
  | some pat =>
      { decision := "FOUND", matched_positive := [], matched_forbidden := [],
        matched_pattern := pat, confidence := 3/5, notes := "Legacy contains_any match" }
  | none =>
      { decision := "MISSING", matched_positive := [], matched_forbidden := [],
        matched_pattern := "", confidence := 0, notes := "Legacy contains_any not found" }

/-- `char_window = max(0, negation_window_tokens * 6)` (6 characters
per token). -/
def charWindow (rule : Rule) : Nat :=
  (max 0 (rule.negation_window_tokens * 6)).toNat

/-- Step 1: snippets of all forbidden-claim matches. -/
def forbidSnips (rule : Rule) (t : List Char) : List String :=
  (find_all (any_regex rule.forbidden_claims) t).map (fun m => snippet t m.1 m.2)

/-- Step 2: all positive-pattern match spans. -/
def posSpans (rule : Rule) (t : List Char) : List (Nat × Nat) :=
  find_all (any_regex rule.positive_patterns) t

/-- Whether a positive match has a negative pattern nearby. -/
def isSuppressed (rule : Rule) (t : List Char) (m : Nat × Nat) : Bool :=
  window_has_negative t m (any_regex rule.negative_patterns) (charWindow rule)

/-- Positive matches with no nearby negation, in match order. -/
def cleanSpans (rule : Rule) (t : List Char) : List (Nat × Nat) :=
  (posSpans rule t).filter (fun m => !isSuppressed rule t m)

/-- Positive matches with a nearby negation, in match order; these are
appended to the contradiction evidence. -/
def contraSpans (rule : Rule) (t : List Char) : List (Nat × Nat) :=
  (posSpans rule t).filter (isSuppressed rule t)

/-- `pos_hits`: the number of clean positive matches. -/
def posHits (rule : Rule) (t : List Char) : Nat :=
  (cleanSpans rule t).length

/-- Snippets of the clean positive matches. -/
def posSnips (rule : Rule) (t : List Char) : List String :=
  (cleanSpans rule t).map (fun m => snippet t m.1 m.2)

/-- Snippets of the suppressed positive matches. -/
def contraSnips (rule : Rule) (t : List Char) : List String :=
  (contraSpans rule t).map (fun m => snippet t m.1 m.2)

/-- `first_pattern`: the matched text of the first clean positive match
whose text is non-empty (`if not first_pattern:` keeps looking past
empty groups), else the empty string. -/
def firstPatternAux (t : List Char) : List (Nat × Nat) → String
  | [] => ""
  | m :: rest => if groupStr t m = "" then firstPatternAux t rest else groupStr t m

/-- The `matched_pattern` value produced by step 2. -/
def firstPattern (rule : Rule) (t : List Char) : String :=
  firstPatternAux t (cleanSpans rule t)

/-- `[0-9A-Z]` under `re.IGNORECASE`. -/
def isRegHeadChar (c : Char) : Bool :=
  c.isDigit || c.isUpper || c.isLower

/-- `[A-Z]` under `re.IGNORECASE`. -/
def isLetterChar (c : Char) : Bool :=
  c.isUpper || c.isLower

/-- The registration shape `\b[0-9A-Z]{1,2}-[A-Z]{3}\b` (compiled with
`re.I`). -/
def regShapeRx : Rx :=
  .seq .wb (.seq (.cls isRegHeadChar 1 2) (.seq (.lit "-") (.seq (.cls isLetterChar 3 3) .wb)))

/-- `re.findall` of the registration shape: the matched texts. -/
def foundRegs (t : List Char) : List String :=
  (Rx.findAll regShapeRx t).map (groupStr t)

/-- `str.upper()`. -/
def upperStr (s : String) : String :=
  String.mk (s.toList.map Char.toUpper)

/-- Python's string order: code-point lexicographic. -/
def lexLe : List Char → List Char → Bool
  | [], _ => true
  | _ :: _, [] => false
  | c :: cs, d :: ds =>
      if c.toNat < d.toNat then true
      else if d.toNat < c.toNat then false
      else lexLe cs ds

/-- Ascending insertion into a sorted list, under Python's code-point
lexicographic string order. -/
def insertAsc (x : String) : List String → List String
  | [] => [x]
  | y :: rest => if lexLe x.toList y.toList then x :: y :: rest else y :: insertAsc x rest

/-- `sorted(set(...))`: duplicates removed, ascending order. -/
def sortedSet (l : List String) : List String :=
  l.dedup.foldr insertAsc []

/-- `missing`: expected registrations with no case-insensitive literal
occurrence in the text. -/
def missingRegs (regs : List String) (t : List Char) : List String :=
  regs.filter (fun r => !litSearch r t)

/-- `extras`: registration-shaped codes found in the text whose
uppercase form is not among the expected registrations (scanned over
`sorted(set(...))` of the found codes). -/
def alignExtras (regs : List String) (t : List Char) : List String :=
  (sortedSet (foundRegs t)).filter (fun r => !(regs.map upperStr).contains (upperStr r))

/-- The missing-notes the alignment block appends, in order: first the
missing-registrations note (only when registrations are configured and
some are absent), then the area note (only when an area is configured
and no area string occurs). -/
def alignNotes (f : OpsFacts) (t : List Char) : List String :=
  (if f.registrations ≠ [] ∧ missingRegs f.registrations t ≠ [] then
    ["Missing registrations in manuals: " ++ joinSep ", " (missingRegs f.registrations t)]
  else []) ++
  (if f.area ≠ [] ∧ ¬ (f.area.any (fun a => litSearch (upperStr a) t)) then
    ["Area from OpsSpecs not clearly stated in manuals"]
  else [])

/-- The conflict snippets the alignment block appends (only when
registrations are configured). -/
def alignForb (f : OpsFacts) (t : List Char) : List String :=
  if f.registrations ≠ [] then
    (alignExtras f.registrations t).map (fun x => "Extra reg in manuals: " ++ x)
  else []

/-- The guard of the alignment block: the rule is an
`align_with_opspecs` rule and facts are available from the run or the
rule (a truthy dict on either side). -/
def alignActive (rule : Rule) (ops_facts : Option OpsFacts) : Prop :=
  rule.rule_type = "align_with_opspecs" ∧ (ops_facts.isSome ∨ rule.ops_facts.isSome)

instance (rule : Rule) (ops_facts : Option OpsFacts) : Decidable (alignActive rule ops_facts) := by
  unfold alignActive
  infer_instance

/-- `of = rule.get("ops_facts") or ops_facts or {}`: rule-level facts
take precedence, else run-level, else empty. -/
def effectiveFacts (rule : Rule) (ops_facts : Option OpsFacts) : OpsFacts :=
  match rule.ops_facts with
  | some f => f
  | none => ops_facts.getD {}

/-- Step 4 (`# 4) Decide`): threshold test, then REVIEW on mixed
evidence, else MISSING. -/
def finalDecide (hits : Nat) (threshold : Int) (snips forb : List String) (fp : String) : Outcome :=
  if (hits : Int) ≥ threshold then
    { decision := "FOUND", matched_positive := snips, matched_forbidden := [],
      matched_pattern := fp,
      confidence := min 1 (3/5 + 1/5 * ((hits : ℚ) - (threshold : ℚ))), notes := "" }
  else if snips ≠ [] ∧ forb ≠ [] then
    { decision := "REVIEW", matched_positive := snips, matched_forbidden := forb,
      matched_pattern := fp, confidence := 1/2,
      notes := "Positive evidence appears near negations/contradictions" }
  else
    { decision := "MISSING", matched_positive := [], matched_forbidden := [],
      matched_pattern := fp, confidence := 0, notes := "" }

/-- `evaluate_rule_semantic(rule, doc_text, ops_facts=None)`: the
decision core, lines 133-282 of the source.  The source's single pass
that both counts clean positive hits and collects suppressed ones is
decomposed into the order-preserving filters `cleanSpans`/`contraSpans`;
the contradiction-evidence list is, as in the source, the forbidden
snippets followed by the suppressed positives followed (in the
alignment block) by the extra-registration snippets. -/
def evaluate_rule_semantic (rule : Rule) (doc_text : String)
    (ops_facts : Option OpsFacts := none) : Outcome :=
  if rule.checks ≠ [] then
    legacyOutcome rule.checks doc_text.toList
  else if forbidSnips rule doc_text.toList ≠ [] ∧
      rule.rule_type ∈ (["deny", "limit", "align_with_opspecs", "affirm"] : List String) then
    { decision := "CONFLICT", matched_positive := [],
      matched_forbidden := forbidSnips rule doc_text.toList, matched_pattern := "",
      confidence := 19/20, notes := "Forbidden claim(s) present" }
  else if alignActive rule ops_facts then
    if forbidSnips rule doc_text.toList ++ contraSnips rule doc_text.toList ++
        alignForb (effectiveFacts rule ops_facts) doc_text.toList ≠ [] then
      { decision := "CONFLICT", matched_positive := posSnips rule doc_text.toList,
        matched_forbidden := forbidSnips rule doc_text.toList ++ contraSnips rule doc_text.toList ++
          alignForb (effectiveFacts rule ops_facts) doc_text.toList,
        matched_pattern := firstPattern rule doc_text.toList, confidence := 9/10,
        notes := if alignNotes (effectiveFacts rule ops_facts) doc_text.toList ≠ [] then
          joinSep "; " (alignNotes (effectiveFacts rule ops_facts) doc_text.toList)
        else "Conflict with ops_facts" }
    else if alignNotes (effectiveFacts rule ops_facts) doc_text.toList ≠ [] ∧
        (posHits rule doc_text.toList : Int) < rule.threshold then
      { decision := "MISSING", matched_positive := posSnips rule doc_text.toList,
        matched_forbidden := [], matched_pattern := firstPattern rule doc_text.toList,
        confidence := 1/5,
        notes := joinSep "; " (alignNotes (effectiveFacts rule ops_facts) doc_text.toList) }
    else
      finalDecide (posHits rule doc_text.toList) rule.threshold (posSnips rule doc_text.toList)
        (forbidSnips rule doc_text.toList ++ contraSnips rule doc_text.toList ++
          alignForb (effectiveFacts rule ops_facts) doc_text.toList)
        (firstPattern rule doc_text.toList)
  else
    finalDecide (posHits rule doc_text.toList) rule.threshold (posSnips rule doc_text.toList)
      (forbidSnips rule doc_text.toList ++ contraSnips rule doc_text.toList)
      (firstPattern rule doc_text.toList)

/-! ## Helper lemmas -/

theorem forbidSnips_ne_nil {rule : Rule} {t : List Char}
    (hm : find_all (any_regex rule.forbidden_claims) t ≠ []) :
    forbidSnips rule t ≠ [] := by
  intro h
  exact hm (List.map_eq_nil_iff.mp h)

/-! ## Claim C1: forbidden claims win unconditionally on the semantic path -/

/-- **C1.** On the semantic path (no legacy checks), whenever the
forbidden-claims scan finds a match in the text, the outcome is a
CONFLICT with confidence 0.95, notes "Forbidden claim(s) present" and an
empty `matched_positive` list, for every `rule_type` of the data model
(`affirm`, `deny`, `limit`, `align_with_opspecs`) and regardless of any
positive matches. -/
theorem c1_forbidden_precedence (rule : Rule) (doc : String) (ops : Option OpsFacts)
    (hchecks : rule.checks = [])
    (hrt : rule.rule_type ∈ (["deny", "limit", "align_with_opspecs", "affirm"] : List String))
    (hm : find_all (any_regex rule.forbidden_claims) doc.toList ≠ []) :
    evaluate_rule_semantic rule doc ops =
      { decision := "CONFLICT", matched_positive := [],
        matched_forbidden := forbidSnips rule doc.toList, matched_pattern := "",
        confidence := 19/20, notes := "Forbidden claim(s) present" } := by
  unfold evaluate_rule_semantic
  rw [if_neg (by simp [hchecks]), if_pos ⟨forbidSnips_ne_nil hm, hrt⟩]

def c1rule : Rule := { forbidden_claims := [.lit "single pilot"] }

/-- Witness for C1 at a concrete rule and text. -/
theorem c1_forbidden_precedence_witness :
    c1rule.checks = [] ∧
    c1rule.rule_type ∈ (["deny", "limit", "align_with_opspecs", "affirm"] : List String) ∧
    find_all (any_regex c1rule.forbidden_claims) "Single pilot operations are approved.".toList ≠ [] ∧
    evaluate_rule_semantic c1rule "Single pilot operations are approved." none =
      { decision := "CONFLICT", matched_positive := [],
        matched_forbidden := forbidSnips c1rule "Single pilot operations are approved.".toList,
        matched_pattern := "", confidence := 19/20, notes := "Forbidden claim(s) present" } :=
  ⟨rfl, by decide, by decide,
    c1_forbidden_precedence c1rule "Single pilot operations are approved." none rfl
      (by decide) (by decide)⟩

/-! ## Claim C8: evaluation is deterministic -/

/-- **C8.** `evaluate_rule_semantic` is a pure function of the rule, the
document text and the facts: two evaluations of the same inputs agree on
every Outcome field.  (In the embedding, the source's freedom from
hidden mutable state is captured by the fact that the decision core is
expressible as a total function of exactly these inputs.) -/
theorem c8_deterministic (rule : Rule) (doc : String) (ops : Option OpsFacts) :
    evaluate_rule_semantic rule doc ops = evaluate_rule_semantic rule doc ops ∧
    (evaluate_rule_semantic rule doc ops).decision = (evaluate_rule_semantic rule doc ops).decision ∧
    (evaluate_rule_semantic rule doc ops).matched_positive = (evaluate_rule_semantic rule doc ops).matched_positive ∧
    (evaluate_rule_semantic rule doc ops).matched_forbidden = (evaluate_rule_semantic rule doc ops).matched_forbidden ∧
    (evaluate_rule_semantic rule doc ops).matched_pattern = (evaluate_rule_semantic rule doc ops).matched_pattern ∧
    (evaluate_rule_semantic rule doc ops).confidence = (evaluate_rule_semantic rule doc ops).confidence ∧
    (evaluate_rule_semantic rule doc ops).notes = (evaluate_rule_semantic rule doc ops).notes :=
  ⟨rfl, rfl, rfl, rfl, rfl, rfl, rfl⟩

/-! ## Legacy-path lemmas -/

theorem firstLegacyHit_eq_none_iff (checks : List Check) (t : List Char) :
    firstLegacyHit checks t = none ↔ ∀ chk ∈ checks, legacyHitPat t chk = none := by
  induction checks with
  | nil => simp [firstLegacyHit]
  | cons chk rest ih =>
    unfold firstLegacyHit
    cases h : legacyHitPat t chk with
    | some pat => simp [h]
    | none => simp [h, ih]

theorem firstLegacyHit_some {checks : List Check} {t : List Char} {pat : String}
    (h : firstLegacyHit checks t = some pat) :
    ∃ chk ∈ checks, legacyHitPat t chk = some pat := by
  induction checks with
  | nil => simp [firstLegacyHit] at h
  | cons chk rest ih =>
    unfold firstLegacyHit at h
    cases hc : legacyHitPat t chk with
    | some q =>
      rw [hc] at h
      have h' : some q = some pat := h
      exact ⟨chk, List.mem_cons_self _ _, by rw [hc]; exact h'⟩
    | none =>
      rw [hc] at h
      have h' : firstLegacyHit rest t = some pat := h
      obtain ⟨c, hmem, hp⟩ := ih h'
      exact ⟨c, List.mem_cons_of_mem _ hmem, hp⟩

theorem legacyHitPat_some {t : List Char} {chk : Check} {pat : String}
    (h : legacyHitPat t chk = some pat) :
    chk.type = "contains_any" ∧ pat ∈ chk.patterns ∧ pat ≠ "" ∧
      containsSub (pat.toList.map Char.toLower) (t.map Char.toLower) = true := by
  unfold legacyHitPat at h
  by_cases hty : chk.type = "contains_any"
  · rw [if_pos hty] at h
    have hp := List.find?_some h
    have hmem := List.mem_of_find?_eq_some h
    rw [Bool.and_eq_true, bne_iff_ne] at hp
    exact ⟨hty, hmem, hp.1, hp.2⟩
  · rw [if_neg hty] at h
    exact absurd h (by simp)

theorem legacyHitPat_eq_none_of_no_hit {t : List Char} {chk : Check}
    (h : ∀ pat ∈ chk.patterns, ¬(pat ≠ "" ∧
      containsSub (pat.toList.map Char.toLower) (t.map Char.toLower) = true)) :
    legacyHitPat t chk = none := by
  unfold legacyHitPat
  split
  · exact List.find?_eq_none.mpr (fun pat hmem => by
      intro hp
      rw [Bool.and_eq_true, bne_iff_ne] at hp
      exact h pat hmem ⟨hp.1, hp.2⟩)
  · rfl

/-- On a rule with non-empty `checks`, evaluation is exactly the legacy
branch. -/
theorem evaluate_eq_legacy (rule : Rule) (doc : String) (ops : Option OpsFacts)
    (hne : rule.checks ≠ []) :
    evaluate_rule_semantic rule doc ops = legacyOutcome rule.checks doc.toList := by
  unfold evaluate_rule_semantic
  rw [if_pos hne]

/-! ## Claim C5: the legacy contains_any contract -/

/-- **C5.** For a rule whose checks are all of type `contains_any` (and
non-empty): the decision is FOUND iff some non-empty pattern occurs
case-insensitively in the text; on the first hit the whole outcome is
the FOUND record with confidence 0.6 and that hit as `matched_pattern`;
otherwise it is the MISSING record with confidence 0.0; and the rule's
semantic fields are never consulted. -/
theorem c5_legacy_contains_any (rule : Rule) (doc : String) (ops : Option OpsFacts)
    (hne : rule.checks ≠ [])
    (hall : ∀ chk ∈ rule.checks, chk.type = "contains_any") :
    ((evaluate_rule_semantic rule doc ops).decision = "FOUND" ↔
      ∃ chk ∈ rule.checks, ∃ pat ∈ chk.patterns, pat ≠ "" ∧
        containsSub (pat.toList.map Char.toLower) (doc.toList.map Char.toLower) = true) ∧
    (∀ pat, firstLegacyHit rule.checks doc.toList = some pat →
      evaluate_rule_semantic rule doc ops =
        { decision := "FOUND", matched_positive := [], matched_forbidden := [],
          matched_pattern := pat, confidence := 3/5, notes := "Legacy contains_any match" }) ∧
    (firstLegacyHit rule.checks doc.toList = none →
      evaluate_rule_semantic rule doc ops =
        { decision := "MISSING", matched_positive := [], matched_forbidden := [],
          matched_pattern := "", confidence := 0, notes := "Legacy contains_any not found" }) ∧
    (∀ pp np fc th wt ofr,
      evaluate_rule_semantic
        { rule with
            positive_patterns := pp,
            negative_patterns := np,
            forbidden_claims := fc,
            threshold := th,
            negation_window_tokens := wt,
            ops_facts := ofr } doc ops =
      evaluate_rule_semantic rule doc ops) := by
  have heval := evaluate_eq_legacy rule doc ops hne
  refine ⟨?_, ?_, ?_, ?_⟩
  · rw [heval]
    unfold legacyOutcome
    cases h : firstLegacyHit rule.checks doc.toList with
    | some pat =>
      obtain ⟨chk, hmem, hp⟩ := firstLegacyHit_some h
      obtain ⟨-, hpat, hne', hsub⟩ := legacyHitPat_some hp
      refine iff_of_true rfl ⟨chk, hmem, pat, hpat, hne', hsub⟩
    | none =>
      rw [firstLegacyHit_eq_none_iff] at h
      refine iff_of_false (by decide) ?_
      rintro ⟨chk, hmem, pat, hpat, hne', hsub⟩
      have := h chk hmem
      unfold legacyHitPat at this
      rw [if_pos (hall chk hmem), List.find?_eq_none] at this
      exact this pat hpat (by rw [Bool.and_eq_true, bne_iff_ne]; exact ⟨hne', hsub⟩)
  · intro pat hp
    rw [heval]
    unfold legacyOutcome
    rw [hp]
  · intro hp
    rw [heval]
    unfold legacyOutcome
    rw [hp]
  · intro pp np fc th wt ofr
    rw [heval, evaluate_eq_legacy _ doc ops (by simpa using hne)]

def c5rule : Rule := { checks := [⟨"contains_any", ["", "Fuel Reserve"]⟩] }

/-- Witness for C5: a concrete legacy rule hit case-insensitively. -/
theorem c5_legacy_contains_any_witness :
    c5rule.checks ≠ [] ∧ (∀ chk ∈ c5rule.checks, chk.type = "contains_any") ∧
    ((evaluate_rule_semantic c5rule "the FUEL reserve is 30 min" none).decision = "FOUND" ↔
      ∃ chk ∈ c5rule.checks, ∃ pat ∈ chk.patterns, pat ≠ "" ∧
        containsSub (pat.toList.map Char.toLower)
          ("the FUEL reserve is 30 min".toList.map Char.toLower) = true) :=
  ⟨by decide, by decide,
    (c5_legacy_contains_any c5rule "the FUEL reserve is 30 min" none (by decide) (by decide)).1⟩

/-! ## Claim C9: a non-empty checks list short-circuits everything -/

/-- **C9.** A rule with non-empty `checks` always takes the legacy path:
when no check has type `contains_any`, or no pattern occurs in the text,
the outcome is the legacy MISSING record with confidence 0.0, and the
semantic fields (`positive_patterns`, `negative_patterns`,
`forbidden_claims`, `threshold`, `ops_facts`) are silently ignored. -/
theorem c9_legacy_short_circuits (rule : Rule) (doc : String) (ops : Option OpsFacts)
    (hne : rule.checks ≠ [])
    (h : (∀ chk ∈ rule.checks, chk.type ≠ "contains_any") ∨
      (∀ chk ∈ rule.checks, ∀ pat ∈ chk.patterns,
        containsSub (pat.toList.map Char.toLower) (doc.toList.map Char.toLower) = false)) :
    evaluate_rule_semantic rule doc ops =
      { decision := "MISSING", matched_positive := [], matched_forbidden := [],
        matched_pattern := "", confidence := 0, notes := "Legacy contains_any not found" } ∧
    (∀ pp np fc th wt ofr,
      evaluate_rule_semantic
        { rule with
            positive_patterns := pp,
            negative_patterns := np,
            forbidden_claims := fc,
            threshold := th,
            negation_window_tokens := wt,
            ops_facts := ofr } doc ops =
      evaluate_rule_semantic rule doc ops) := by
  have heval := evaluate_eq_legacy rule doc ops hne
  constructor
  · rw [heval]
    have hnone : firstLegacyHit rule.checks doc.toList = none := by
      rw [firstLegacyHit_eq_none_iff]
      intro chk hmem
      rcases h with h | h
      · unfold legacyHitPat
        rw [if_neg (h chk hmem)]
      · exact legacyHitPat_eq_none_of_no_hit (fun pat hpat hcontra =>
          by rw [h chk hmem pat hpat] at hcontra; exact absurd hcontra.2 (by decide))
    unfold legacyOutcome
    rw [hnone]
  · intro pp np fc th wt ofr
    rw [heval, evaluate_eq_legacy _ doc ops (by simpa using hne)]

def c9rule : Rule :=
  { checks := [⟨"contains_any", ["zebra"]⟩],
    positive_patterns := [.lit "alpha"], forbidden_claims := [.lit "alpha"] }

/-- Witness for C9: the legacy miss wins although both a positive and a
forbidden semantic pattern would match the text. -/
theorem c9_legacy_short_circuits_witness :
    c9rule.checks ≠ [] ∧
    (∀ chk ∈ c9rule.checks, ∀ pat ∈ chk.patterns,
      containsSub (pat.toList.map Char.toLower) ("alpha bravo".toList.map Char.toLower) = false) ∧
    evaluate_rule_semantic c9rule "alpha bravo" none =
      { decision := "MISSING", matched_positive := [], matched_forbidden := [],
        matched_pattern := "", confidence := 0, notes := "Legacy contains_any not found" } :=
  ⟨by decide, by decide,
    (c9_legacy_short_circuits c9rule "alpha bravo" none (by decide) (Or.inr (by decide))).1⟩

/-! ## Empty-text lemmas -/

theorem find_all_nil_text (p : Option Rx) : find_all p [] = [] := by
  cases p <;> simp [find_all]

theorem posSpans_nil (rule : Rule) : posSpans rule [] = [] := by
  simp [posSpans, find_all_nil_text]

theorem forbidSnips_nil (rule : Rule) : forbidSnips rule [] = [] := by
  simp [forbidSnips, find_all_nil_text]

theorem cleanSpans_nil (rule : Rule) : cleanSpans rule [] = [] := by
  simp [cleanSpans, posSpans_nil]

theorem contraSnips_nil (rule : Rule) : contraSnips rule [] = [] := by
  simp [contraSnips, contraSpans, posSpans_nil]

theorem posSnips_nil (rule : Rule) : posSnips rule [] = [] := by
  simp [posSnips, cleanSpans_nil]

theorem posHits_nil (rule : Rule) : posHits rule [] = 0 := by
  simp [posHits, cleanSpans_nil]

theorem foundRegs_nil : foundRegs [] = [] := by decide

theorem alignForb_nil (f : OpsFacts) : alignForb f [] = [] := by
  unfold alignForb alignExtras
  rw [foundRegs_nil]
  simp [sortedSet]

theorem containsSub_nil {needle : List Char} (h : needle ≠ []) :
    containsSub needle [] = false := by
  cases needle with
  | nil => exact absurd rfl h
  | cons c l => simp [containsSub, List.isPrefixOf]

theorem firstLegacyHit_nil_text (checks : List Check) : firstLegacyHit checks [] = none := by
  rw [firstLegacyHit_eq_none_iff]
  intro chk _
  apply legacyHitPat_eq_none_of_no_hit
  rintro pat hpat ⟨hne', hsub⟩
  rw [List.map_nil] at hsub
  have hl : pat.toList.map Char.toLower ≠ [] := by
    simp only [ne_eq, List.map_eq_nil_iff]
    intro h0
    exact hne' (String.ext h0)
  rw [containsSub_nil hl] at hsub
  exact absurd hsub (by decide)

/-- When the threshold is positive, zero hits with no positive snippets
decide MISSING with confidence 0. -/
theorem finalDecide_zero (threshold : Int) (forb : List String) (fp : String)
    (h : 0 < threshold) :
    finalDecide 0 threshold [] forb fp =
      { decision := "MISSING", matched_positive := [], matched_forbidden := [],
        matched_pattern := fp, confidence := 0, notes := "" } := by
  unfold finalDecide
  rw [if_neg (by push_cast; omega), if_neg (by simp)]

/-! ## Claim C6 (amended): empty text degrades to MISSING -/

def c6rule : Rule :=
  { rule_type := "align_with_opspecs", ops_facts := some { registrations := ["4X-BHS"] } }

/-- Counterexample to C6 as stated: an `align_with_opspecs` rule with
facts supplied evaluates empty text to MISSING with confidence 0.2 (the
missing-registrations note), not 0.0. -/
theorem c6_counterexample :
    (evaluate_rule_semantic c6rule "" none).decision = "MISSING" ∧
    (evaluate_rule_semantic c6rule "" none).confidence = 1/5 ∧
    ¬ (evaluate_rule_semantic c6rule "" none).confidence = 0 ∧
    (evaluate_rule_semantic c6rule "" none).notes = "Missing registrations in manuals: 4X-BHS" := by
  have h : (evaluate_rule_semantic c6rule "" none).confidence = 1/5 := rfl
  refine ⟨by decide, h, by rw [h]; norm_num, by decide⟩

/-- **C6 (amended).** Empty document text raises no exception (the
embedding is total) and yields decision MISSING for every rule whose
threshold respects the data-model invariant `threshold ≥ 1`; the
confidence is 0.0 except on the alignment path, where an
`align_with_opspecs` rule with facts may report its missing-notes with
confidence 0.2; in particular any rule that is not an active alignment
rule gets confidence exactly 0.0. -/
theorem c6_empty_text_amended (rule : Rule) (ops : Option OpsFacts)
    (hthr : 1 ≤ rule.threshold) :
    (evaluate_rule_semantic rule "" ops).decision = "MISSING" ∧
    ((evaluate_rule_semantic rule "" ops).confidence = 0 ∨
      (evaluate_rule_semantic rule "" ops).confidence = 1/5) ∧
    (¬ alignActive rule ops → (evaluate_rule_semantic rule "" ops).confidence = 0) := by
  have ht : ("" : String).toList = [] := rfl
  unfold evaluate_rule_semantic
  rw [ht]
  by_cases hc : rule.checks = []
  · rw [if_neg (by simp [hc])]
    rw [if_neg (by simp [forbidSnips_nil])]
    by_cases ha : alignActive rule ops
    · rw [if_pos ha]
      rw [if_neg (by simp [forbidSnips_nil, contraSnips_nil, alignForb_nil])]
      by_cases hn : alignNotes (effectiveFacts rule ops) [] ≠ [] ∧
          (posHits rule [] : Int) < rule.threshold
      · rw [if_pos hn]
        exact ⟨rfl, Or.inr rfl, fun hna => absurd ha hna⟩
      · rw [if_neg hn]
        rw [posHits_nil, posSnips_nil,
          finalDecide_zero rule.threshold _ _ (by omega)]
        exact ⟨rfl, Or.inl rfl, fun _ => rfl⟩
    · rw [if_neg ha]
      rw [posHits_nil, posSnips_nil,
        finalDecide_zero rule.threshold _ _ (by omega)]
      exact ⟨rfl, Or.inl rfl, fun _ => rfl⟩
  · rw [if_pos hc]
    unfold legacyOutcome
    rw [firstLegacyHit_nil_text]
    exact ⟨rfl, Or.inl rfl, fun _ => rfl⟩

def c6ruleW : Rule := { positive_patterns := [.lit "fuel"] }

/-- Witness for the amended C6 at a concrete semantic rule. -/
theorem c6_empty_text_amended_witness :
    (1 : Int) ≤ c6ruleW.threshold ∧
    (evaluate_rule_semantic c6ruleW "" none).decision = "MISSING" ∧
    ((evaluate_rule_semantic c6ruleW "" none).confidence = 0 ∨
      (evaluate_rule_semantic c6ruleW "" none).confidence = 1/5) :=
  ⟨by decide, (c6_empty_text_amended c6ruleW none (by decide)).1,
    (c6_empty_text_amended c6ruleW none (by decide)).2.1⟩

/-! ## Claim C2 (amended): threshold boundary -/

def c2ruleCE : Rule :=
  { rule_type := "align_with_opspecs", positive_patterns := [.lit "fuel"],
    threshold := 1, ops_facts := some { registrations := ["4X-BHS"] } }

/-- Counterexample to C2 as stated: a semantic rule with threshold 1,
no forbidden-claim match and one clean positive hit nevertheless decides
CONFLICT (not FOUND), because the alignment branch flags the unexpected
registration "4X-ZZZ" first. -/
theorem c2_counterexample :
    c2ruleCE.checks = [] ∧
    forbidSnips c2ruleCE "Fleet fuel: 4X-BHS and 4X-ZZZ.".toList = [] ∧
    (1 : Int) ≤ c2ruleCE.threshold ∧
    c2ruleCE.threshold ≤ (posHits c2ruleCE "Fleet fuel: 4X-BHS and 4X-ZZZ.".toList : Int) ∧
    (evaluate_rule_semantic c2ruleCE "Fleet fuel: 4X-BHS and 4X-ZZZ." none).decision = "CONFLICT" := by
  refine ⟨rfl, by decide, by decide, by decide, by decide⟩

/-- **C2 (amended).** For a semantic rule with threshold `N ≥ 1` whose
forbidden claims do not match: provided the alignment branch (when
active) has accumulated no contradiction evidence, at least `N` clean
positive hits decide FOUND with confidence exactly
`min(1.0, 0.6 + 0.2 * (hits - N))`; and with exactly `N - 1` clean hits
the decision is never FOUND. -/
theorem c2_threshold_boundary_amended (rule : Rule) (doc : String) (ops : Option OpsFacts)
    (hchecks : rule.checks = [])
    (hforb : forbidSnips rule doc.toList = [])
    (hthr : 1 ≤ rule.threshold) :
    ((alignActive rule ops →
        contraSnips rule doc.toList ++ alignForb (effectiveFacts rule ops) doc.toList = []) →
      rule.threshold ≤ (posHits rule doc.toList : Int) →
      (evaluate_rule_semantic rule doc ops).decision = "FOUND" ∧
      (evaluate_rule_semantic rule doc ops).confidence =
        min 1 (3/5 + 1/5 * ((posHits rule doc.toList : ℚ) - (rule.threshold : ℚ)))) ∧
    ((posHits rule doc.toList : Int) = rule.threshold - 1 →
      (evaluate_rule_semantic rule doc ops).decision ≠ "FOUND") := by
  unfold evaluate_rule_semantic
  rw [if_neg (fun h => h hchecks), if_neg (fun h => h.1 hforb)]
  constructor
  · intro halign hge
    by_cases ha : alignActive rule ops
    · rw [if_pos ha]
      have h2 : forbidSnips rule doc.toList ++ contraSnips rule doc.toList ++
          alignForb (effectiveFacts rule ops) doc.toList = [] := by
        rw [hforb]
        simpa using halign ha
      rw [if_neg (fun h => h h2)]
      rw [if_neg (by rintro ⟨-, hlt⟩; omega)]
      unfold finalDecide
      rw [if_pos hge]
      exact ⟨rfl, rfl⟩
    · rw [if_neg ha]
      unfold finalDecide
      rw [if_pos hge]
      exact ⟨rfl, rfl⟩
  · intro heq
    have hlt : (posHits rule doc.toList : Int) < rule.threshold := by omega
    have hmiss : ∀ forb : List String,
        (finalDecide (posHits rule doc.toList) rule.threshold (posSnips rule doc.toList)
          forb (firstPattern rule doc.toList)).decision ≠ "FOUND" := by
      intro forb
      unfold finalDecide
      rw [if_neg (by omega)]
      by_cases h4 : posSnips rule doc.toList ≠ [] ∧ forb ≠ []
      · rw [if_pos h4]
        exact (by decide : ("REVIEW" : String) ≠ "FOUND")
      · rw [if_neg h4]
        exact (by decide : ("MISSING" : String) ≠ "FOUND")
    by_cases ha : alignActive rule ops
    · rw [if_pos ha]
      by_cases h2 : forbidSnips rule doc.toList ++ contraSnips rule doc.toList ++
          alignForb (effectiveFacts rule ops) doc.toList ≠ []
      · rw [if_pos h2]
        exact (by decide : ("CONFLICT" : String) ≠ "FOUND")
      · rw [if_neg h2]
        by_cases h3 : alignNotes (effectiveFacts rule ops) doc.toList ≠ [] ∧
            (posHits rule doc.toList : Int) < rule.threshold
        · rw [if_pos h3]
          exact (by decide : ("MISSING" : String) ≠ "FOUND")
        · rw [if_neg h3]
          exact hmiss _
    · rw [if_neg ha]
      exact hmiss _

def c2ruleW : Rule := { positive_patterns := [.lit "fuel reserve"] }

/-- Witness for the amended C2: one clean hit at threshold 1 decides
FOUND with confidence 0.6 (the spec's first scenario). -/
theorem c2_threshold_boundary_amended_witness :
    c2ruleW.checks = [] ∧
    forbidSnips c2ruleW "The fuel reserve requirement is 30 minutes.".toList = [] ∧
    (1 : Int) ≤ c2ruleW.threshold ∧
    c2ruleW.threshold ≤ (posHits c2ruleW "The fuel reserve requirement is 30 minutes.".toList : Int) ∧
    (evaluate_rule_semantic c2ruleW "The fuel reserve requirement is 30 minutes." none).decision = "FOUND" ∧
    (evaluate_rule_semantic c2ruleW "The fuel reserve requirement is 30 minutes." none).confidence =
      min 1 (3/5 + 1/5 * ((posHits c2ruleW "The fuel reserve requirement is 30 minutes.".toList : ℚ) -
        (c2ruleW.threshold : ℚ))) :=
  ⟨rfl, by decide, by decide, by decide,
    ((c2_threshold_boundary_amended c2ruleW "The fuel reserve requirement is 30 minutes." none
      rfl (by decide) (by decide)).1 (by decide) (by decide)).1,
    ((c2_threshold_boundary_amended c2ruleW "The fuel reserve requirement is 30 minutes." none
      rfl (by decide) (by decide)).1 (by decide) (by decide)).2⟩

/-! ## Claim C10 (amended): the threshold invariant is not enforced -/

def c10ruleCE : Rule :=
  { rule_type := "align_with_opspecs", threshold := 0,
    ops_facts := some { registrations := ["4X-BHS"] } }

/-- Counterexample to C10 as stated: a semantic rule with threshold 0
and no forbidden-claim match decides CONFLICT (not FOUND) when the
alignment branch flags an unexpected registration. -/
theorem c10_counterexample :
    c10ruleCE.checks = [] ∧
    c10ruleCE.threshold ≤ 0 ∧
    forbidSnips c10ruleCE "Reg 4X-ZZZ noted".toList = [] ∧
    (evaluate_rule_semantic c10ruleCE "Reg 4X-ZZZ noted" none).decision = "CONFLICT" := by
  refine ⟨rfl, by decide, by decide, by decide⟩

/-- **C10 (amended).** The `threshold ≥ 1` invariant is not enforced:
for a semantic rule with `threshold ≤ 0` and no forbidden-claim match —
provided the alignment branch (when active) has accumulated no
contradiction evidence — the decision is FOUND even with zero positive
hits, with confidence `min(1.0, 0.6 + 0.2 * (0 - threshold))` in the
zero-hit case. -/
theorem c10_threshold_unenforced_amended (rule : Rule) (doc : String) (ops : Option OpsFacts)
    (hchecks : rule.checks = [])
    (hforb : forbidSnips rule doc.toList = [])
    (hthr : rule.threshold ≤ 0)
    (halign : alignActive rule ops →
      contraSnips rule doc.toList ++ alignForb (effectiveFacts rule ops) doc.toList = []) :
    (evaluate_rule_semantic rule doc ops).decision = "FOUND" ∧
    (posHits rule doc.toList = 0 →
      (evaluate_rule_semantic rule doc ops).confidence =
        min 1 (3/5 + 1/5 * (0 - (rule.threshold : ℚ)))) := by
  have hge : rule.threshold ≤ (posHits rule doc.toList : Int) :=
    le_trans hthr (Int.natCast_nonneg _)
  unfold evaluate_rule_semantic
  rw [if_neg (fun h => h hchecks), if_neg (fun h => h.1 hforb)]
  have hfin :
      (finalDecide (posHits rule doc.toList) rule.threshold (posSnips rule doc.toList)
        (forbidSnips rule doc.toList ++ contraSnips rule doc.toList ++
          alignForb (effectiveFacts rule ops) doc.toList) (firstPattern rule doc.toList)).decision = "FOUND" ∧
      (posHits rule doc.toList = 0 →
        (finalDecide (posHits rule doc.toList) rule.threshold (posSnips rule doc.toList)
          (forbidSnips rule doc.toList ++ contraSnips rule doc.toList ++
            alignForb (effectiveFacts rule ops) doc.toList) (firstPattern rule doc.toList)).confidence =
          min 1 (3/5 + 1/5 * (0 - (rule.threshold : ℚ)))) := by
    unfold finalDecide
    rw [if_pos hge]
    exact ⟨rfl, fun h0 => by rw [h0]; norm_num⟩
  have hfin2 :
      (finalDecide (posHits rule doc.toList) rule.threshold (posSnips rule doc.toList)
        (forbidSnips rule doc.toList ++ contraSnips rule doc.toList) (firstPattern rule doc.toList)).decision = "FOUND" ∧
      (posHits rule doc.toList = 0 →
        (finalDecide (posHits rule doc.toList) rule.threshold (posSnips rule doc.toList)
          (forbidSnips rule doc.toList ++ contraSnips rule doc.toList) (firstPattern rule doc.toList)).confidence =
          min 1 (3/5 + 1/5 * (0 - (rule.threshold : ℚ)))) := by
    unfold finalDecide
    rw [if_pos hge]
    exact ⟨rfl, fun h0 => by rw [h0]; norm_num⟩
  by_cases ha : alignActive rule ops
  · rw [if_pos ha]
    have h2 : forbidSnips rule doc.toList ++ contraSnips rule doc.toList ++
        alignForb (effectiveFacts rule ops) doc.toList = [] := by
      rw [hforb]
      simpa using halign ha
    rw [if_neg (fun h => h h2)]
    rw [if_neg (by rintro ⟨-, hlt⟩; omega)]
    exact hfin
  · rw [if_neg ha]
    exact hfin2

def c10ruleW : Rule := { threshold := 0 }

/-- Witness for the amended C10: with threshold 0, empty text and no
positive patterns at all, the decision is FOUND. -/
theorem c10_threshold_unenforced_amended_witness :
    c10ruleW.checks = [] ∧ c10ruleW.threshold ≤ 0 ∧
    posHits c10ruleW "".toList = 0 ∧
    (evaluate_rule_semantic c10ruleW "" none).decision = "FOUND" ∧
    (evaluate_rule_semantic c10ruleW "" none).confidence =
      min 1 (3/5 + 1/5 * (0 - (c10ruleW.threshold : ℚ))) :=
  ⟨rfl, by decide, by decide,
    (c10_threshold_unenforced_amended c10ruleW "" none rfl (by decide) (by decide) (by decide)).1,
    (c10_threshold_unenforced_amended c10ruleW "" none rfl (by decide) (by decide) (by decide)).2
      (by decide)⟩

/-! ## Claim C4 (amended): the alignment branch -/

def c4ruleCE : Rule :=
  { rule_type := "align_with_opspecs", positive_patterns := [.lit "approved"],
    negative_patterns := [.lit "not"], ops_facts := some { registrations := ["4X-BHS"] } }

/-- Counterexample to C4 as stated: an `align_with_opspecs` rule whose
fact-alignment produces NO conflict snippet (no extra registration) but
does produce a missing-note, with zero clean hits below the threshold,
nevertheless decides CONFLICT 0.9 instead of MISSING 0.2, because a
negation-suppressed positive match sits in the contradiction list the
branch inspects. -/
theorem c4_counterexample :
    alignExtras ["4X-BHS"] "not approved here".toList = [] ∧
    missingRegs ["4X-BHS"] "not approved here".toList ≠ [] ∧
    posHits c4ruleCE "not approved here".toList = 0 ∧
    (evaluate_rule_semantic c4ruleCE "not approved here" none).decision = "CONFLICT" ∧
    (evaluate_rule_semantic c4ruleCE "not approved here" none).confidence = 9/10 := by
  refine ⟨by decide, by decide, by decide, by decide,
    (rfl : (evaluate_rule_semantic c4ruleCE "not approved here" none).confidence = 9/10)⟩

/-- **C4 (amended).** For an `align_with_opspecs` rule with facts
available (rule-level over run-level) and no forbidden-claim match: any
alignment conflict snippet (an extra registration-shaped code whose
uppercase form is not in the expected set) forces CONFLICT with
confidence 0.9 even when positive hits exist; otherwise — provided
additionally that no negation-suppressed positive match has accrued as
contradiction evidence — missing-notes together with a clean hit count
below the threshold decide MISSING with confidence 0.2 and the joined
missing-notes. -/
theorem c4_alignment_amended (rule : Rule) (doc : String) (ops : Option OpsFacts)
    (hchecks : rule.checks = [])
    (hrt : rule.rule_type = "align_with_opspecs")
    (hfacts : ops.isSome ∨ rule.ops_facts.isSome)
    (hforb : forbidSnips rule doc.toList = []) :
    (alignForb (effectiveFacts rule ops) doc.toList ≠ [] →
      (evaluate_rule_semantic rule doc ops).decision = "CONFLICT" ∧
      (evaluate_rule_semantic rule doc ops).confidence = 9/10) ∧
    (contraSnips rule doc.toList = [] →
      alignForb (effectiveFacts rule ops) doc.toList = [] →
      alignNotes (effectiveFacts rule ops) doc.toList ≠ [] →
      (posHits rule doc.toList : Int) < rule.threshold →
      evaluate_rule_semantic rule doc ops =
        { decision := "MISSING", matched_positive := posSnips rule doc.toList,
          matched_forbidden := [], matched_pattern := firstPattern rule doc.toList,
          confidence := 1/5,
          notes := joinSep "; " (alignNotes (effectiveFacts rule ops) doc.toList) }) := by
  have ha : alignActive rule ops := ⟨hrt, hfacts⟩
  unfold evaluate_rule_semantic
  rw [if_neg (fun h => h hchecks), if_neg (fun h => h.1 hforb), if_pos ha]
  constructor
  · intro hex
    rw [if_pos (fun h => hex (List.append_eq_nil.mp h).2)]
    exact ⟨rfl, rfl⟩
  · intro hcontra hex hnotes hlt
    have h2 : forbidSnips rule doc.toList ++ contraSnips rule doc.toList ++
        alignForb (effectiveFacts rule ops) doc.toList = [] := by
      rw [hforb, hcontra, hex]
      rfl
    rw [if_neg (fun h => h h2), if_pos ⟨hnotes, hlt⟩]

def c4ruleW : Rule :=
  { rule_type := "align_with_opspecs", ops_facts := some { registrations := ["4X-BHS"] } }

/-- Witness for the amended C4 at the spec's scenario: expected
registration 4X-BHS, document also carries 4X-ZZZ, so the rule resolves
to CONFLICT with confidence 0.9. -/
theorem c4_alignment_amended_witness :
    alignForb (effectiveFacts c4ruleW none) "Fleet: 4X-BHS and 4X-ZZZ.".toList ≠ [] ∧
    (evaluate_rule_semantic c4ruleW "Fleet: 4X-BHS and 4X-ZZZ." none).decision = "CONFLICT" ∧
    (evaluate_rule_semantic c4ruleW "Fleet: 4X-BHS and 4X-ZZZ." none).confidence = 9/10 :=
  ⟨by decide,
    ((c4_alignment_amended c4ruleW "Fleet: 4X-BHS and 4X-ZZZ." none rfl rfl (Or.inr rfl)
      (by decide)).1 (by decide)).1,
    ((c4_alignment_amended c4ruleW "Fleet: 4X-BHS and 4X-ZZZ." none rfl rfl (Or.inr rfl)
      (by decide)).1 (by decide)).2⟩

/-! ## Claim C3 (amended): negation suppression -/

/-- The compiled form of the scenario's negation pattern regex. -/
def c3noFuel : Rx := .seq (.lit "no") (.seq .wsPlus (.lit "fuel"))

def c3rule : Rule :=
  { rule_type := "affirm", positive_patterns := [.lit "fuel reserve"],
    negative_patterns := [c3noFuel], threshold := 1, negation_window_tokens := 3 }

/-- Counterexample to C3 as stated: in the spec's own scenario the only
positive match is suppressed and the decision is MISSING, but the
returned `matched_forbidden` list is empty (the final MISSING return
hard-codes it to `[]`), contradicting the claimed non-emptiness. -/
theorem c3_counterexample :
    posSpans c3rule "There is no fuel reserve requirement.".toList ≠ [] ∧
    (evaluate_rule_semantic c3rule "There is no fuel reserve requirement." none).decision = "MISSING" ∧
    (evaluate_rule_semantic c3rule "There is no fuel reserve requirement." none).matched_forbidden = [] := by
  refine ⟨by decide, by decide, by decide⟩

theorem length_filter_partition (l : List (Nat × Nat)) (p : Nat × Nat → Bool) :
    (l.filter (fun a => !p a)).length + (l.filter p).length = l.length := by
  induction l with
  | nil => rfl
  | cons a l ih =>
    by_cases h : p a <;> simp [List.filter_cons, h] <;> omega

/-- **C3 (amended).** A positive match with a negative pattern within
the `6 x negation_window_tokens` character window never counts toward
the positive-hit threshold (clean hits and suppressed matches partition
the positive matches), and the suppressed match is recorded in the
internal contradiction evidence — which surfaces in the outcome only on
the REVIEW and alignment-CONFLICT paths.  In the spec's scenario the
only match is suppressed: the decision is MISSING with zero hits, the
internal contradiction snippets are non-empty, but the outcome's
`matched_forbidden` is empty. -/
theorem c3_negation_suppression_amended :
    (∀ (rule : Rule) (t : List Char),
      posHits rule t + (contraSpans rule t).length = (posSpans rule t).length) ∧
    evaluate_rule_semantic c3rule "There is no fuel reserve requirement." none =
      { decision := "MISSING", matched_positive := [], matched_forbidden := [],
        matched_pattern := "", confidence := 0, notes := "" } ∧
    contraSnips c3rule "There is no fuel reserve requirement.".toList ≠ [] ∧
    posHits c3rule "There is no fuel reserve requirement.".toList = 0 := by
  exact ⟨fun rule t => length_filter_partition (posSpans rule t) (isSuppressed rule t),
    rfl, by decide, by decide⟩

end IFR
